import Mathlib

/-!
Shallow embedding of the four-seat turn-based session coordinator in
`app/main.py`: the `GameState` aggregate (roster, identity-to-connection
mapping, turn, started flag), the `ConnectionManager` event handlers
(`connect`, `disconnect`, `handle_message`) and the messages they emit.

Connections (Python `WebSocket` objects) are modelled as natural numbers;
the mapping `GameState.players` (a Python `dict`, insertion ordered with
unique keys) is modelled as an association list, with helper functions
mirroring the Python `dict` and `list` operations used by the source.
Python truthiness of strings (`""` and `None` are falsy) is modelled
explicitly where the source relies on it.
-/

namespace Okey

/-- Python `d[k] = v` on an insertion-ordered dict rendered as an
association list: update the value in place if the key is present,
otherwise append the new binding at the end. -/
def dictInsert : List (String × Nat) → String → Nat → List (String × Nat)
  | [], k, v => [(k, v)]
  | (k', v') :: d, k, v =>
      if k' = k then (k, v) :: d else (k', v') :: dictInsert d k v

/-- Python `d.get(k)` / `k in d` support: first binding of `k`, if any. -/
def dictLookup : List (String × Nat) → String → Option Nat
  | [], _ => none
  | (k', v') :: d, k => if k' = k then some v' else dictLookup d k

/-- Python `k in d`. -/
def dictHasKey (d : List (String × Nat)) (k : String) : Bool :=
  (dictLookup d k).isSome

/-- Python `del d[k]` on a dict with unique keys: drop the binding(s)
for `k`, keeping the order of the rest. -/
def dictDel : List (String × Nat) → String → List (String × Nat)
  | [], _ => []
  | (k', v') :: d, k =>
      if k' = k then dictDel d k else (k', v') :: dictDel d k

/-- Python `list.remove(a)`: drop the first occurrence of `a`, no-op when
absent (the source guards the call with `a in list`, so the `ValueError`
branch of `remove` is unreachable). -/
def listRemove : List String → String → List String
  | [], _ => []
  | x :: xs, a => if x = a then xs else x :: listRemove xs a

/-- Python `list.index(a)` wrapped in `try`: position of the first
occurrence of `a`, or `none` where the source would catch `ValueError`. -/
def pyIndex : List String → String → Option Nat
  | [], _ => none
  | x :: xs, a => if x = a then some 0 else (pyIndex xs a).map (· + 1)

/-- Python truthiness of an optional string: `None` and `""` are falsy. -/
def pyFalsy : Option String → Bool
  | none => true
  | some s => s = ""

/-- The immutable view returned by `GameState.to_dict`. -/
structure Snapshot where
  players : List String
  turn : Option String
  game_started : Bool
deriving DecidableEq, Repr

/-- The `GameState` class of `app/main.py`: identity-to-connection dict,
roster in connection order, turn holder (or vacant), started flag. -/
structure GameState where
  players : List (String × Nat)
  player_order : List String
  turn : Option String
  game_started : Bool
deriving DecidableEq, Repr

/-- The `GameState()` constructor: everything empty, turn vacant,
game not started. -/
def GameState.init : GameState :=
  { players := [], player_order := [], turn := none, game_started := false }

/-- `GameState.add_player`: `self.players[player_id] = websocket` and
`self.player_order.append(player_id)`. -/
def GameState.add_player (s : GameState) (player_id : String) (ws : Nat) :
    GameState :=
  { s with
    players := dictInsert s.players player_id ws
    player_order := s.player_order ++ [player_id] }

/-- `GameState.remove_player`: vacate the turn if the leaving player held
it, then delete the player from the dict and the roster (each deletion
guarded by a membership test in the source). -/
def GameState.remove_player (s : GameState) (player_id : String) : GameState :=
  let t := if s.turn = some player_id then none else s.turn
  { s with
    turn := t
    players := dictDel s.players player_id
    player_order := listRemove s.player_order player_id }

/-- `GameState.get_player_id_by_websocket`: scan the dict in order and
return the first identity bound to this connection. -/
def GameState.get_player_id_by_websocket (s : GameState) (ws : Nat) :
    Option String :=
  match s.players.find? (fun p => p.2 = ws) with
  | some p => some p.1
  | none => none

/-- `GameState.start_game`: set the flag and hand the turn to the first
roster entry. The source reads `self.player_order[0]`, which assumes a
non-empty roster (true at its only call site); an empty roster is rendered
as `head? = none` where Python would raise `IndexError`. -/
def GameState.start_game (s : GameState) : GameState :=
  { s with game_started := true, turn := s.player_order.head? }

/-- `GameState.next_turn`: if the turn is falsy (`None` or `""`) or the
roster is empty, vacate the turn; otherwise move to the successor of the
current holder's first roster position, wrapping cyclically, and fall back
to the roster head if `list.index` raises `ValueError`. -/
def GameState.next_turn (s : GameState) : GameState :=
  if pyFalsy s.turn || s.player_order.isEmpty then
    { s with turn := none }
  else
    match s.turn with
    | none => { s with turn := none }
    | some t =>
        match pyIndex s.player_order t with
        | some i =>
            { s with
              turn := s.player_order[(i + 1) % s.player_order.length]? }
        | none => { s with turn := s.player_order.head? }

/-- `GameState.to_dict`. -/
def GameState.to_dict (s : GameState) : Snapshot :=
  { players := s.player_order, turn := s.turn, game_started := s.game_started }

/-- The JSON messages the server emits, by their `type` field. -/
inductive Msg where
  | player_connected (player_id : String)
  | initial_state (player_id : String) (game_state : Snapshot)
  | game_started (turn : Option String)
  | turn_update (turn : Option String)
  | player_disconnected (player_id : String)
  | game_update (mv : Option String) (player_id : String) (turn : Option String)
deriving DecidableEq, Repr

/-- `ConnectionManager.broadcast` sends one message to every connection in
`game_state.players`; rendered as the list of (connection, message)
deliveries, in dict order. -/
def GameState.broadcast (s : GameState) (msg : Msg) : List (Nat × Msg) :=
  s.players.map (fun p => (p.2, msg))

/-- The `ConnectionManager` class: the game state plus the monotone
identity counter. -/
structure ConnectionManager where
  game_state : GameState
  player_counter : Nat
deriving DecidableEq, Repr

/-- The `ConnectionManager()` constructor. -/
def ConnectionManager.init : ConnectionManager :=
  { game_state := GameState.init, player_counter := 0 }

/-- The identity minted for the n-th connection: `f"P{n}"`. -/
def mintId (n : Nat) : String := "P" ++ toString n

/-- `ConnectionManager.connect`: mint the next identity, broadcast
`player_connected` to the players registered so far, register the
newcomer, send it `initial_state`, then either start the game (roster
reached four, not started) or fill a vacant turn (started and vacant),
broadcasting `game_started` or `turn_update` accordingly. Returns the new
manager and the emitted (connection, message) deliveries in order. -/
def ConnectionManager.connect (cm : ConnectionManager) (ws : Nat) :
    ConnectionManager × List (Nat × Msg) :=
  let counter := cm.player_counter + 1
  let player_id := mintId counter
  let msgs0 := cm.game_state.broadcast (Msg.player_connected player_id)
  let gs1 := cm.game_state.add_player player_id ws
  let msgs1 := msgs0 ++ [(ws, Msg.initial_state player_id gs1.to_dict)]
  if gs1.players.length = 4 ∧ gs1.game_started = false then
    let gs2 := gs1.start_game
    (⟨gs2, counter⟩, msgs1 ++ gs2.broadcast (Msg.game_started gs2.turn))
  else if gs1.game_started = true ∧ gs1.turn = none then
    let gs2 := { gs1 with turn := some player_id }
    (⟨gs2, counter⟩, msgs1 ++ gs2.broadcast (Msg.turn_update gs2.turn))
  else
    (⟨gs1, counter⟩, msgs1)

/-- `ConnectionManager.disconnect`: resolve the identity owning this
connection (Python tests it for truthiness, so an empty identity would
also be skipped); if found, remove it and broadcast
`player_disconnected` to the remaining players. -/
def ConnectionManager.disconnect (cm : ConnectionManager) (ws : Nat) :
    ConnectionManager × List (Nat × Msg) :=
  match cm.game_state.get_player_id_by_websocket ws with
  | none => (cm, [])
  | some player_id =>
      if player_id = "" then (cm, [])
      else
        let gs1 := cm.game_state.remove_player player_id
        (⟨gs1, cm.player_counter⟩,
          gs1.broadcast (Msg.player_disconnected player_id))

/-- `ConnectionManager.handle_message`: resolve the sender (dropping
unresolved or falsy identities); if the message `type` is `"move"` and
the sender holds the turn, advance the turn and broadcast `game_update`;
every other message is dropped with no state change and no reply. -/
def ConnectionManager.handle_message (cm : ConnectionManager) (ws : Nat)
    (msgType : Option String) (mv : Option String) :
    ConnectionManager × List (Nat × Msg) :=
  match cm.game_state.get_player_id_by_websocket ws with
  | none => (cm, [])
  | some player_id =>
      if player_id = "" then (cm, [])
      else if msgType = some "move" ∧ cm.game_state.turn = some player_id then
        let gs1 := cm.game_state.next_turn
        (⟨gs1, cm.player_counter⟩,
          gs1.broadcast (Msg.game_update mv player_id gs1.turn))
      else (cm, [])

/-- The three kinds of client-driven events the endpoint feeds to the
manager: a new connection, a dropped connection, a received message
(carrying its `type` and `move` fields). -/
inductive Event where
  | connect (ws : Nat)
  | disconnect (ws : Nat)
  | message (ws : Nat) (msgType : Option String) (mv : Option String)
deriving DecidableEq, Repr

/-- Dispatch one event to the corresponding handler. -/
def ConnectionManager.step (cm : ConnectionManager) (e : Event) :
    ConnectionManager × List (Nat × Msg) :=
  match e with
  | Event.connect ws => cm.connect ws
  | Event.disconnect ws => cm.disconnect ws
  | Event.message ws ty mv => cm.handle_message ws ty mv

/-- Run a sequence of events from a given manager state. -/
def runFrom (cm : ConnectionManager) : List Event → ConnectionManager
  | [] => cm
  | e :: es => runFrom (cm.step e).1 es

/-- Run a sequence of events from the freshly constructed manager. -/
def runTrace (es : List Event) : ConnectionManager :=
  runFrom ConnectionManager.init es

/-- Run a sequence of events from a given manager state, collecting every
emitted (connection, message) delivery in order. -/
def runFromLog (cm : ConnectionManager) :
    List Event → ConnectionManager × List (Nat × Msg)
  | [] => (cm, [])
  | e :: es =>
      let st := cm.step e
      let rest := runFromLog st.1 es
      (rest.1, st.2 ++ rest.2)

/-- All deliveries emitted over a trace started from a fresh manager. -/
def traceLog (es : List Event) : List (Nat × Msg) :=
  (runFromLog ConnectionManager.init es).2

/-- Detector for `game_started` messages. -/
def isGameStartedMsg : Msg → Bool
  | Msg.game_started _ => true
  | _ => false

/-- Detector for `turn_update` messages. -/
def isTurnUpdateMsg : Msg → Bool
  | Msg.turn_update _ => true
  | _ => false

/-- Detector for `game_update` messages. -/
def isGameUpdateMsg : Msg → Bool
  | Msg.game_update _ _ _ => true
  | _ => false

/-- Detector for `player_connected` messages. -/
def isPlayerConnectedMsg : Msg → Bool
  | Msg.player_connected _ => true
  | _ => false

/-- True when some delivery in the list carries a message matching `f`. -/
def hasMsg (f : Msg → Bool) (msgs : List (Nat × Msg)) : Bool :=
  msgs.any (fun d => f d.2)

/-- Modelled from the spec wording of `register(identity, connection)`, for
comparison with the source's `GameState.add_player`: append the identity to
the roster tail and the binding to the mapping, failing (`none`) exactly
when the identity is already present. -/
def registerSpec (s : GameState) (player_id : String) (ws : Nat) :
    Option GameState :=
  if player_id ∈ s.player_order then none
  else
    some
      { s with
        players := s.players ++ [(player_id, ws)]
        player_order := s.player_order ++ [player_id] }

/-- Turn-membership invariant: a non-vacant turn names a roster member. -/
def TurnInv (s : GameState) : Prop :=
  ∀ t, s.turn = some t → t ∈ s.player_order

/-- All roster identities are non-empty strings (they are minted as
`"P<n>"`), so Python truthiness tests on them never fire. -/
def IdsOk (s : GameState) : Prop :=
  ∀ t ∈ s.player_order, t ≠ ""

/-- Before the game starts the turn is vacant. -/
def LobbyVacant (s : GameState) : Prop :=
  s.game_started = false → s.turn = none

/-- For C1: whether this event is a connect whose registration brings the
mapping to exactly four entries. -/
def connectFillsRoster (cm : ConnectionManager) : Event → Bool
  | Event.connect ws =>
      decide
        ((cm.game_state.add_player (mintId (cm.player_counter + 1)) ws).players.length = 4)
  | _ => false

/-- Scenario A of the spec: four players connect in order. -/
def scenarioA : List Event :=
  [Event.connect 1, Event.connect 2, Event.connect 3, Event.connect 4]

/-- A trace in which the first player leaves before the fourth distinct
player connects: four distinct identities get registered but the roster
never holds four members at once. -/
def earlyLeaveTrace : List Event :=
  [Event.connect 1, Event.disconnect 1, Event.connect 2, Event.connect 3,
    Event.connect 4]

/-! ### Helper lemmas about the list and dict primitives -/

theorem mintId_ne_empty (n : Nat) : mintId n ≠ "" := by
  intro h
  have hd : (mintId n).data = ("" : String).data := by rw [h]
  simp [mintId, String.data_append] at hd

theorem head?_mem {l : List String} {a : String} (h : l.head? = some a) :
    a ∈ l := by
  cases l with
  | nil => simp at h
  | cons x xs => simp at h; simp [h]

theorem pyIndex_lt_length :
    ∀ {l : List String} {a : String} {i : Nat},
      pyIndex l a = some i → i < l.length := by
  intro l
  induction l with
  | nil => intro a i h; simp [pyIndex] at h
  | cons x xs ih =>
    intro a i h
    by_cases hx : x = a
    · simp [pyIndex, hx] at h
      simp only [List.length_cons]
      omega
    · simp [pyIndex, hx] at h
      obtain ⟨j, hj, rfl⟩ := h
      have := ih hj
      simp only [List.length_cons]
      omega

theorem pyIndex_isSome_of_mem :
    ∀ {l : List String} {a : String}, a ∈ l → (pyIndex l a).isSome := by
  intro l
  induction l with
  | nil => intro a h; simp at h
  | cons x xs ih =>
    intro a h
    by_cases hx : x = a
    · simp [pyIndex, hx]
    · rcases List.mem_cons.mp h with h1 | h2
      · exact absurd h1.symm hx
      · simp [pyIndex, hx, Option.isSome_map]
        exact ih h2

theorem mem_of_mem_listRemove :
    ∀ {l : List String} {a b : String}, a ∈ listRemove l b → a ∈ l := by
  intro l
  induction l with
  | nil => intro a b h; simp [listRemove] at h
  | cons x xs ih =>
    intro a b h
    by_cases hx : x = b
    · simp [listRemove, hx] at h
      exact List.mem_cons_of_mem _ h
    · simp [listRemove, hx] at h
      rcases h with h1 | h2
      · simp [h1]
      · exact List.mem_cons_of_mem _ (ih h2)

theorem mem_listRemove_of_ne :
    ∀ {l : List String} {a b : String}, a ≠ b → a ∈ l → a ∈ listRemove l b := by
  intro l
  induction l with
  | nil => intro a b _ h; simp at h
  | cons x xs ih =>
    intro a b hne h
    by_cases hx : x = b
    · simp [listRemove, hx]
      rcases List.mem_cons.mp h with h1 | h2
      · exact absurd (h1.trans hx) hne
      · exact h2
    · simp [listRemove, hx]
      rcases List.mem_cons.mp h with h1 | h2
      · exact Or.inl h1
      · exact Or.inr (ih hne h2)

theorem dictLookup_dictInsert_self :
    ∀ (d : List (String × Nat)) (k : String) (v : Nat),
      dictLookup (dictInsert d k v) k = some v := by
  intro d
  induction d with
  | nil => intro k v; simp [dictInsert, dictLookup]
  | cons p d ih =>
    intro k v
    by_cases hk : p.1 = k
    · simp [dictInsert, dictLookup, hk]
    · simp [dictInsert, dictLookup, hk]
      exact ih k v

theorem dictInsert_of_not_hasKey :
    ∀ {d : List (String × Nat)} {k : String}, dictHasKey d k = false →
      ∀ v, dictInsert d k v = d ++ [(k, v)] := by
  intro d
  induction d with
  | nil => intro k _ v; simp [dictInsert]
  | cons p d ih =>
    intro k hk v
    by_cases hpk : p.1 = k
    · simp [dictHasKey, dictLookup, hpk] at hk
    · simp [dictHasKey, dictLookup, hpk] at hk
      simp [dictInsert, hpk]
      exact ih (by simp [dictHasKey, hk]) v

theorem dictInsert_ne_nil (d : List (String × Nat)) (k : String) (v : Nat) :
    dictInsert d k v ≠ [] := by
  cases d with
  | nil => simp [dictInsert]
  | cons p d =>
    by_cases hk : p.1 = k <;> simp [dictInsert, hk]

/-! ### Lemmas about the transition operations -/

theorem next_turn_players (s : GameState) : s.next_turn.players = s.players := by
  unfold GameState.next_turn
  split
  · rfl
  · split
    · rfl
    · split <;> rfl

theorem next_turn_player_order (s : GameState) :
    s.next_turn.player_order = s.player_order := by
  unfold GameState.next_turn
  split
  · rfl
  · split
    · rfl
    · split <;> rfl

theorem next_turn_game_started (s : GameState) :
    s.next_turn.game_started = s.game_started := by
  unfold GameState.next_turn
  split
  · rfl
  · split
    · rfl
    · split <;> rfl

theorem next_turn_turn_mem {s : GameState} {t : String}
    (h : s.next_turn.turn = some t) : t ∈ s.player_order := by
  unfold GameState.next_turn at h
  split at h
  · simp at h
  · split at h
    · simp at h
    · split at h
      · rename_i u i hidx
        simp only at h
        have hi := pyIndex_lt_length hidx
        have hlen : 0 < s.player_order.length := Nat.lt_of_le_of_lt (Nat.zero_le _) hi
        have hm : (i + 1) % s.player_order.length < s.player_order.length :=
          Nat.mod_lt _ hlen
        rw [List.getElem?_eq_getElem hm] at h
        have he : s.player_order[(i + 1) % s.player_order.length] = t :=
          Option.some.inj h
        rw [← he]
        exact List.getElem_mem hm
      · simp only at h
        exact head?_mem h

theorem next_turn_of_index {s : GameState} {t : String} {i : Nat}
    (ht : s.turn = some t) (hne : t ≠ "")
    (hidx : pyIndex s.player_order t = some i) :
    s.next_turn.turn = s.player_order[(i + 1) % s.player_order.length]? := by
  have hi := pyIndex_lt_length hidx
  have hnonempty : s.player_order.isEmpty = false := by
    cases hl : s.player_order with
    | nil => rw [hl] at hi; simp at hi
    | cons a b => rfl
  have hfal : pyFalsy s.turn = false := by simp [ht, pyFalsy, hne]
  unfold GameState.next_turn
  rw [hfal, hnonempty]
  simp only [Bool.or_self, Bool.false_or, if_false, Bool.false_eq_true,
    ite_false]
  rw [ht]
  simp only [hidx]

theorem mem_broadcast_eq {gs : GameState} {m : Msg} {d : Nat × Msg}
    (h : d ∈ gs.broadcast m) : d.2 = m := by
  unfold GameState.broadcast at h
  obtain ⟨p, _, he⟩ := List.mem_map.mp h
  rw [← he]

theorem broadcast_mem {gs : GameState} {m : Msg} {p : String × Nat}
    (h : p ∈ gs.players) : (p.2, m) ∈ gs.broadcast m :=
  List.mem_map.mpr ⟨p, h, rfl⟩

theorem hasMsg_append (f : Msg → Bool) (a b : List (Nat × Msg)) :
    hasMsg f (a ++ b) = (hasMsg f a || hasMsg f b) := by
  simp [hasMsg, List.any_append]

theorem hasMsg_broadcast_iff {f : Msg → Bool} {gs : GameState} {m : Msg} :
    hasMsg f (gs.broadcast m) = true ↔ f m = true ∧ gs.players ≠ [] := by
  unfold hasMsg GameState.broadcast
  constructor
  · intro h
    obtain ⟨d, hd, hf⟩ := List.any_eq_true.mp h
    obtain ⟨p, hp, he⟩ := List.mem_map.mp hd
    refine ⟨?_, List.ne_nil_of_mem hp⟩
    rw [← he] at hf
    exact hf
  · rintro ⟨hf, hne⟩
    obtain ⟨p, hp⟩ := List.exists_mem_of_ne_nil _ hne
    exact List.any_eq_true.mpr ⟨(p.2, m), List.mem_map.mpr ⟨p, hp, rfl⟩, hf⟩

theorem handle_message_vacant_noop (cm : ConnectionManager) (ws : Nat)
    (ty mv : Option String) (h : cm.game_state.turn = none) :
    cm.handle_message ws ty mv = (cm, []) := by
  unfold ConnectionManager.handle_message
  cases hw : cm.game_state.get_player_id_by_websocket ws with
  | none => rfl
  | some pid =>
    by_cases hp : pid = ""
    · simp [hp]
    · have hc : ¬(ty = some "move" ∧ cm.game_state.turn = some pid) := by
        rintro ⟨-, h2⟩
        rw [h] at h2
        cases h2
      simp [hp, hc]

/-! ### Preservation of the reachable-state invariants -/

theorem connect_turnInv (cm : ConnectionManager) (ws : Nat)
    (h : TurnInv cm.game_state) : TurnInv (cm.connect ws).1.game_state := by
  unfold ConnectionManager.connect
  dsimp only
  split
  · intro t ht
    exact head?_mem ht
  · split
    · intro t ht
      have he := Option.some.inj ht
      subst he
      exact List.mem_append_right _ (List.mem_singleton_self _)
    · intro t ht
      exact List.mem_append_left _ (h t ht)

theorem disconnect_turnInv (cm : ConnectionManager) (ws : Nat)
    (h : TurnInv cm.game_state) : TurnInv (cm.disconnect ws).1.game_state := by
  unfold ConnectionManager.disconnect
  split
  · exact h
  · split
    · exact h
    · rename_i pid hw hp
      intro t ht
      unfold GameState.remove_player at ht ⊢
      dsimp only at ht ⊢
      by_cases hc : cm.game_state.turn = some pid
      · rw [if_pos hc] at ht
        cases ht
      · rw [if_neg hc] at ht
        have htm := h t ht
        have hne : t ≠ pid := by
          intro he
          apply hc
          rw [← he]
          exact ht
        exact mem_listRemove_of_ne hne htm

theorem message_turnInv (cm : ConnectionManager) (ws : Nat)
    (ty mv : Option String) (h : TurnInv cm.game_state) :
    TurnInv (cm.handle_message ws ty mv).1.game_state := by
  unfold ConnectionManager.handle_message
  split
  · exact h
  · split
    · exact h
    · split
      · intro t ht
        show t ∈ cm.game_state.next_turn.player_order
        rw [next_turn_player_order]
        exact next_turn_turn_mem ht
      · exact h

theorem step_turnInv (cm : ConnectionManager) (e : Event)
    (h : TurnInv cm.game_state) : TurnInv (cm.step e).1.game_state := by
  cases e with
  | connect ws => exact connect_turnInv cm ws h
  | disconnect ws => exact disconnect_turnInv cm ws h
  | message ws ty mv => exact message_turnInv cm ws ty mv h

theorem idsOk_append {s : GameState} (h : IdsOk s) (n : Nat) :
    ∀ t ∈ s.player_order ++ [mintId n], t ≠ "" := by
  intro t htm
  rcases List.mem_append.mp htm with h1 | h2
  · exact h t h1
  · rw [List.mem_singleton.mp h2]
    exact mintId_ne_empty n

theorem connect_idsOk (cm : ConnectionManager) (ws : Nat)
    (h : IdsOk cm.game_state) : IdsOk (cm.connect ws).1.game_state := by
  unfold ConnectionManager.connect
  dsimp only
  split
  · exact idsOk_append h _
  · split
    · exact idsOk_append h _
    · exact idsOk_append h _

theorem disconnect_idsOk (cm : ConnectionManager) (ws : Nat)
    (h : IdsOk cm.game_state) : IdsOk (cm.disconnect ws).1.game_state := by
  unfold ConnectionManager.disconnect
  split
  · exact h
  · split
    · exact h
    · intro t htm
      exact h t (mem_of_mem_listRemove htm)

theorem message_idsOk (cm : ConnectionManager) (ws : Nat)
    (ty mv : Option String) (h : IdsOk cm.game_state) :
    IdsOk (cm.handle_message ws ty mv).1.game_state := by
  unfold ConnectionManager.handle_message
  split
  · exact h
  · split
    · exact h
    · split
      · intro t htm
        have htm' : t ∈ cm.game_state.next_turn.player_order := htm
        rw [next_turn_player_order] at htm'
        exact h t htm'
      · exact h

theorem step_idsOk (cm : ConnectionManager) (e : Event)
    (h : IdsOk cm.game_state) : IdsOk (cm.step e).1.game_state := by
  cases e with
  | connect ws => exact connect_idsOk cm ws h
  | disconnect ws => exact disconnect_idsOk cm ws h
  | message ws ty mv => exact message_idsOk cm ws ty mv h

theorem connect_lobbyVacant (cm : ConnectionManager) (ws : Nat)
    (h : LobbyVacant cm.game_state) :
    LobbyVacant (cm.connect ws).1.game_state := by
  unfold ConnectionManager.connect
  dsimp only
  split
  · intro hs
    have hs' : (true : Bool) = false := hs
    exact Bool.noConfusion hs'
  · split
    · rename_i h1 h2
      intro hs
      have h21 : cm.game_state.game_started = true := h2.1
      have hs' : cm.game_state.game_started = false := hs
      rw [h21] at hs'
      exact Bool.noConfusion hs'
    · intro hs
      exact h hs

theorem disconnect_lobbyVacant (cm : ConnectionManager) (ws : Nat)
    (h : LobbyVacant cm.game_state) :
    LobbyVacant (cm.disconnect ws).1.game_state := by
  unfold ConnectionManager.disconnect
  split
  · exact h
  · split
    · exact h
    · rename_i pid hw hp
      intro hs
      have hv : cm.game_state.turn = none := h hs
      show (if cm.game_state.turn = some pid then none
        else cm.game_state.turn) = none
      rw [hv]
      simp

theorem message_lobbyVacant (cm : ConnectionManager) (ws : Nat)
    (ty mv : Option String) (h : LobbyVacant cm.game_state) :
    LobbyVacant (cm.handle_message ws ty mv).1.game_state := by
  unfold ConnectionManager.handle_message
  split
  · exact h
  · split
    · exact h
    · split
      · rename_i pid hw hp hc
        intro hs
        have hs' : cm.game_state.game_started = false := by
          have hs2 : cm.game_state.next_turn.game_started = false := hs
          rw [next_turn_game_started] at hs2
          exact hs2
        have hv : cm.game_state.turn = none := h hs'
        rw [hv] at hc
        exact absurd hc.2 (by simp)
      · exact h

theorem step_lobbyVacant (cm : ConnectionManager) (e : Event)
    (h : LobbyVacant cm.game_state) :
    LobbyVacant (cm.step e).1.game_state := by
  cases e with
  | connect ws => exact connect_lobbyVacant cm ws h
  | disconnect ws => exact disconnect_lobbyVacant cm ws h
  | message ws ty mv => exact message_lobbyVacant cm ws ty mv h

theorem runFrom_pres (P : ConnectionManager → Prop)
    (hstep : ∀ cm e, P cm → P (cm.step e).1) :
    ∀ (es : List Event) (cm : ConnectionManager), P cm → P (runFrom cm es)
  | [], _, h => h
  | e :: es, cm, h => runFrom_pres P hstep es (cm.step e).1 (hstep cm e h)

theorem runTrace_turnInv (es : List Event) : TurnInv (runTrace es).game_state :=
  runFrom_pres (fun cm => TurnInv cm.game_state) step_turnInv es
    ConnectionManager.init (fun t ht => by cases ht)

theorem runTrace_idsOk (es : List Event) : IdsOk (runTrace es).game_state :=
  runFrom_pres (fun cm => IdsOk cm.game_state) step_idsOk es
    ConnectionManager.init (fun t htm => absurd htm (List.not_mem_nil t))

theorem runTrace_lobbyVacant (es : List Event) :
    LobbyVacant (runTrace es).game_state :=
  runFrom_pres (fun cm => LobbyVacant cm.game_state) step_lobbyVacant es
    ConnectionManager.init (fun _ => rfl)

theorem hasMsg_broadcast_false {f : Msg → Bool} {gs : GameState} {m : Msg}
    (hm : f m = false) : hasMsg f (gs.broadcast m) = false := by
  cases h : hasMsg f (gs.broadcast m) with
  | false => rfl
  | true =>
    have hf := (hasMsg_broadcast_iff.mp h).1
    rw [hm] at hf
    exact hf.symm

theorem hasMsg_broadcast_true {f : Msg → Bool} {gs : GameState} {m : Msg}
    (hm : f m = true) (hne : gs.players ≠ []) :
    hasMsg f (gs.broadcast m) = true :=
  hasMsg_broadcast_iff.mpr ⟨hm, hne⟩

theorem disconnect_game_started (cm : ConnectionManager) (ws : Nat) :
    (cm.disconnect ws).1.game_state.game_started
      = cm.game_state.game_started := by
  unfold ConnectionManager.disconnect
  split
  · rfl
  · split <;> rfl

theorem message_game_started (cm : ConnectionManager) (ws : Nat)
    (ty mv : Option String) :
    (cm.handle_message ws ty mv).1.game_state.game_started
      = cm.game_state.game_started := by
  unfold ConnectionManager.handle_message
  split
  · rfl
  · split
    · rfl
    · split
      · exact next_turn_game_started _
      · rfl

theorem connect_msgs_not_game_update (cm : ConnectionManager) (ws : Nat) :
    ∀ d ∈ (cm.connect ws).2, isGameUpdateMsg d.2 = false := by
  unfold ConnectionManager.connect
  dsimp only
  split
  · intro d hd
    rcases List.mem_append.mp hd with hd1 | hd2
    · rcases List.mem_append.mp hd1 with hd0 | hdi
      · rw [mem_broadcast_eq hd0]
        rfl
      · rw [List.mem_singleton.mp hdi]
        rfl
    · rw [mem_broadcast_eq hd2]
      rfl
  · split
    · intro d hd
      rcases List.mem_append.mp hd with hd1 | hd2
      · rcases List.mem_append.mp hd1 with hd0 | hdi
        · rw [mem_broadcast_eq hd0]
          rfl
        · rw [List.mem_singleton.mp hdi]
          rfl
      · rw [mem_broadcast_eq hd2]
        rfl
    · intro d hd
      rcases List.mem_append.mp hd with hd0 | hdi
      · rw [mem_broadcast_eq hd0]
        rfl
      · rw [List.mem_singleton.mp hdi]
        rfl

theorem disconnect_msgs_not_game_update (cm : ConnectionManager) (ws : Nat) :
    ∀ d ∈ (cm.disconnect ws).2, isGameUpdateMsg d.2 = false := by
  unfold ConnectionManager.disconnect
  split
  · intro d hd
    simp at hd
  · split
    · intro d hd
      simp at hd
    · intro d hd
      dsimp only at hd
      rw [mem_broadcast_eq hd]
      rfl

theorem hasMsg_broadcast_eq (f : Msg → Bool) (gs : GameState) (m : Msg) :
    hasMsg f (gs.broadcast m) = (f m && !gs.players.isEmpty) := by
  cases hp : gs.players with
  | nil =>
    unfold hasMsg GameState.broadcast
    rw [hp]
    simp
  | cons x xs =>
    cases hf : f m with
    | false =>
      rw [hasMsg_broadcast_false hf]
      simp [hf]
    | true =>
      rw [hasMsg_broadcast_true hf (by rw [hp]; simp)]
      simp [hf, hp]

theorem connect_msgs_hasGS (cm : ConnectionManager) (ws : Nat) :
    hasMsg isGameStartedMsg (cm.connect ws).2
      = decide
          ((cm.game_state.add_player (mintId (cm.player_counter + 1))
              ws).players.length = 4
            ∧ cm.game_state.game_started = false) := by
  unfold ConnectionManager.connect
  dsimp only
  split
  · rename_i h1
    have h1' : (cm.game_state.add_player (mintId (cm.player_counter + 1))
        ws).players.length = 4 ∧ cm.game_state.game_started = false := h1
    have hne : ((cm.game_state.add_player (mintId (cm.player_counter + 1))
        ws).start_game.players).isEmpty = false := by
      cases hd : (cm.game_state.add_player (mintId (cm.player_counter + 1))
          ws).start_game.players with
      | nil => exact absurd hd (dictInsert_ne_nil _ _ _)
      | cons y ys => rfl
    rw [hasMsg_append, hasMsg_append, hasMsg_broadcast_eq, hasMsg_broadcast_eq,
      hne]
    simp [hasMsg, isGameStartedMsg, h1'.1, h1'.2]
  · rename_i h1
    have h1' : ¬((cm.game_state.add_player (mintId (cm.player_counter + 1))
        ws).players.length = 4 ∧ cm.game_state.game_started = false) := h1
    split
    · rw [hasMsg_append, hasMsg_append, hasMsg_broadcast_eq, hasMsg_broadcast_eq]
      simp [hasMsg, isGameStartedMsg, h1']
    · rw [hasMsg_append, hasMsg_broadcast_eq]
      simp [hasMsg, isGameStartedMsg, h1']

theorem connect_msgs_hasTU (cm : ConnectionManager) (ws : Nat) :
    hasMsg isTurnUpdateMsg (cm.connect ws).2
      = decide
          (cm.game_state.game_started = true ∧ cm.game_state.turn = none) := by
  unfold ConnectionManager.connect
  dsimp only
  split
  · rename_i h1
    have hs : cm.game_state.game_started = false := h1.2
    rw [hasMsg_append, hasMsg_append, hasMsg_broadcast_eq, hasMsg_broadcast_eq]
    simp [hasMsg, isTurnUpdateMsg, hs]
  · rename_i h1
    split
    · rename_i h2
      have h2' : cm.game_state.game_started = true
          ∧ cm.game_state.turn = none := h2
      have hne : ((cm.game_state.add_player (mintId (cm.player_counter + 1))
          ws).players).isEmpty = false := by
        cases hd : (cm.game_state.add_player (mintId (cm.player_counter + 1))
            ws).players with
        | nil => exact absurd hd (dictInsert_ne_nil _ _ _)
        | cons y ys => rfl
      rw [hasMsg_append, hasMsg_append, hasMsg_broadcast_eq, hasMsg_broadcast_eq]
      simp [hasMsg, isTurnUpdateMsg, h2'.1, h2'.2, hne]
    · rename_i h2
      have h2' : ¬(cm.game_state.game_started = true
          ∧ cm.game_state.turn = none) := h2
      rw [hasMsg_append, hasMsg_broadcast_eq]
      simp [hasMsg, isTurnUpdateMsg, h2']

/-! ### Claim theorems -/
/-! ### Claim theorems -/

/-- C9: `next_turn` applied in a state whose turn is vacant leaves the
whole state unchanged — in particular the turn stays vacant and the roster
is untouched, even when the roster is non-empty; a vacant turn never gets
a holder installed by `next_turn`. -/
theorem next_turn_vacant_noop (s : GameState) (h : s.turn = none) :
    s.next_turn = s := by
  obtain ⟨p, o, t, g⟩ := s
  have ht : t = none := h
  subst ht
  simp [GameState.next_turn, pyFalsy]

/-- Witness for C9 at a concrete state with a non-empty roster and a
vacant turn. -/
theorem next_turn_vacant_noop_witness :
    (GameState.mk [("P1", 1), ("P2", 2)] ["P1", "P2"] none true).next_turn
      = GameState.mk [("P1", 1), ("P2", 2)] ["P1", "P2"] none true :=
  next_turn_vacant_noop _ rfl

/-- C4: a move message from a registered player who does not hold the turn
is dropped silently: the manager (roster, mapping, turn, started flag) is
returned unchanged and no message at all is emitted, in particular no
`game_update` and no error reply to the sender. -/
theorem out_of_turn_move_noop (cm : ConnectionManager) (ws : Nat)
    (mv : Option String) (p : String)
    (hreg : cm.game_state.get_player_id_by_websocket ws = some p)
    (hturn : cm.game_state.turn ≠ some p) :
    cm.handle_message ws (some "move") mv = (cm, []) := by
  unfold ConnectionManager.handle_message
  rw [hreg]
  by_cases hp : p = ""
  · simp [hp]
  · simp [hp]
    intro hx
    exact absurd hx hturn

/-- Witness for C4: with the turn on P1, a move from P2 is a no-op. -/
theorem out_of_turn_move_noop_witness :
    (ConnectionManager.mk
        (GameState.mk [("P1", 1), ("P2", 2)] ["P1", "P2"] (some "P1") true)
        2).handle_message 2 (some "move") (some "e4")
      = (ConnectionManager.mk
          (GameState.mk [("P1", 1), ("P2", 2)] ["P1", "P2"] (some "P1") true)
          2, []) :=
  out_of_turn_move_noop _ 2 (some "e4") "P2" rfl (by decide)

/-- C6 counterexample: registering an already-present identity does not
fail. The spec-worded `registerSpec` signals the violation (`none`), but
the code's `add_player` returns normally, overwriting the mapping entry
and appending a duplicate roster entry. -/
theorem add_player_duplicate_counterexample :
    registerSpec (GameState.mk [("P1", 1)] ["P1"] none false) "P1" 2 = none
    ∧ (GameState.add_player (GameState.mk [("P1", 1)] ["P1"] none false)
        "P1" 2).player_order = ["P1", "P1"]
    ∧ (GameState.add_player (GameState.mk [("P1", 1)] ["P1"] none false)
        "P1" 2).players = [("P1", 2)] := by
  refine ⟨by decide, by decide, by decide⟩

/-- C6 amended: `add_player` always appends the identity to the roster
tail and leaves the mapping binding the identity to the new connection;
when the identity is not already present this agrees exactly with the
spec's `register` (mapping entry appended at the tail), and no failure is
ever signalled — on a duplicate the code silently overwrites the mapping
value and duplicates the roster entry instead of failing. -/
theorem add_player_characterization (s : GameState) (p : String) (ws : Nat) :
    (s.add_player p ws).player_order = s.player_order ++ [p]
    ∧ dictLookup (s.add_player p ws).players p = some ws
    ∧ (p ∉ s.player_order → dictHasKey s.players p = false →
        registerSpec s p ws = some (s.add_player p ws)) := by
  refine ⟨rfl, dictLookup_dictInsert_self _ _ _, ?_⟩
  intro hmem hkey
  unfold registerSpec
  rw [if_neg hmem]
  unfold GameState.add_player
  rw [dictInsert_of_not_hasKey hkey]

/-- Witness for C6 on a fresh identity: the code and the spec-worded
register agree. -/
theorem add_player_characterization_witness :
    registerSpec (GameState.mk [("P1", 1)] ["P1"] none false) "P2" 2
      = some (GameState.add_player
          (GameState.mk [("P1", 1)] ["P1"] none false) "P2" 2) :=
  (add_player_characterization (GameState.mk [("P1", 1)] ["P1"] none false)
    "P2" 2).2.2 (by decide) (by decide)

/-- C3: turn membership: every event handler preserves the invariant that
a non-vacant turn names a current roster member, and consequently in every
state reachable from the initial state by any event sequence a non-vacant
turn is in the roster. -/
theorem turn_membership_invariant :
    (∀ (cm : ConnectionManager) (e : Event),
        TurnInv cm.game_state → TurnInv (cm.step e).1.game_state)
    ∧ (∀ (es : List Event) (t : String),
        (runTrace es).game_state.turn = some t →
        t ∈ (runTrace es).game_state.player_order) :=
  ⟨step_turnInv, fun es t ht => runTrace_turnInv es t ht⟩

/-- Witness for C3 after Scenario A: the turn holder P1 is in the
roster. -/
theorem turn_membership_invariant_witness :
    "P1" ∈ (runTrace scenarioA).game_state.player_order :=
  turn_membership_invariant.2 scenarioA "P1" (by decide)

/-- C5: in any reachable state, an accepted move — a `"move"` message
whose resolved sender holds the turn, with the holder at roster position
`i` — sets the turn to the holder's cyclic successor in roster order:
the entry at position `(i + 1)` modulo the roster length. -/
theorem accepted_move_advances_turn (es : List Event) (ws : Nat)
    (mv : Option String) (t : String) (i : Nat)
    (hturn : (runTrace es).game_state.turn = some t)
    (hreg : (runTrace es).game_state.get_player_id_by_websocket ws = some t)
    (hidx : pyIndex (runTrace es).game_state.player_order t = some i) :
    ((runTrace es).handle_message ws (some "move") mv).1.game_state.turn
      = (runTrace es).game_state.player_order[(i + 1)
          % (runTrace es).game_state.player_order.length]? := by
  have htmem := runTrace_turnInv es t hturn
  have hne : t ≠ "" := runTrace_idsOk es t htmem
  unfold ConnectionManager.handle_message
  rw [hreg]
  dsimp only
  rw [if_neg hne, if_pos ⟨rfl, hturn⟩]
  dsimp only
  exact next_turn_of_index hturn hne hidx

/-- Witness for C5 after Scenario A: P1 holds the turn at position 0 and
an accepted move hands it to the entry at position 1 mod 4, i.e. P2. -/
theorem accepted_move_advances_turn_witness :
    (runTrace scenarioA).game_state.turn = some "P1"
    ∧ pyIndex (runTrace scenarioA).game_state.player_order "P1" = some 0
    ∧ ((runTrace scenarioA).handle_message 1 (some "move")
          (some "e4")).1.game_state.turn
        = (runTrace scenarioA).game_state.player_order[(0 + 1)
            % (runTrace scenarioA).game_state.player_order.length]? :=
  ⟨by decide, by decide,
    accepted_move_advances_turn scenarioA 1 (some "e4") "P1" 0 (by decide)
      (by decide) (by decide)⟩

/-- C8: per connect event, a `game_started` broadcast is emitted iff the
registration brings the mapping to four entries while the game has not
started, a `turn_update` broadcast is emitted iff the game has started
and the turn is vacant, and the two never fire on the same connect; on
every other connect neither is emitted. -/
theorem connect_broadcast_dichotomy (cm : ConnectionManager) (ws : Nat) :
    (hasMsg isGameStartedMsg (cm.connect ws).2 = true ↔
      ((cm.game_state.add_player (mintId (cm.player_counter + 1))
          ws).players.length = 4
        ∧ cm.game_state.game_started = false))
    ∧ (hasMsg isTurnUpdateMsg (cm.connect ws).2 = true ↔
        (cm.game_state.game_started = true ∧ cm.game_state.turn = none))
    ∧ ¬(hasMsg isGameStartedMsg (cm.connect ws).2 = true
        ∧ hasMsg isTurnUpdateMsg (cm.connect ws).2 = true) := by
  have hgs := connect_msgs_hasGS cm ws
  have htu := connect_msgs_hasTU cm ws
  refine ⟨?_, ?_, ?_⟩
  · rw [hgs]
    exact decide_eq_true_iff
  · rw [htu]
    exact decide_eq_true_iff
  · rintro ⟨ha, hb⟩
    rw [hgs] at ha
    rw [htu] at hb
    have ha' := of_decide_eq_true ha
    have hb' := of_decide_eq_true hb
    rw [ha'.2] at hb'
    exact Bool.noConfusion hb'.1

/-- Witness for C8: P4's connect in Scenario A emits a `game_started`
broadcast; the fifth connect into the started game with a vacant turn
does not emit a second one. -/
theorem connect_broadcast_dichotomy_witness :
    hasMsg isGameStartedMsg
        ((runTrace [Event.connect 1, Event.connect 2,
            Event.connect 3]).connect 4).2 = true
    ∧ ¬(hasMsg isGameStartedMsg
          ((runTrace [Event.connect 1, Event.connect 2,
              Event.connect 3]).connect 4).2 = true
        ∧ hasMsg isTurnUpdateMsg
            ((runTrace [Event.connect 1, Event.connect 2,
                Event.connect 3]).connect 4).2 = true) :=
  ⟨(connect_broadcast_dichotomy
        (runTrace [Event.connect 1, Event.connect 2, Event.connect 3]) 4).1.mpr
      ⟨by decide, by decide⟩,
    (connect_broadcast_dichotomy
        (runTrace [Event.connect 1, Event.connect 2, Event.connect 3]) 4).2.2⟩

/-- C10: while the turn is vacant, any message from any connection is
dropped with no state change and no output; in every reachable state the
turn is vacant whenever the game has not started (the whole lobby phase);
and hence no event processed from a reachable not-yet-started state can
emit a `game_update`. -/
theorem lobby_messages_dropped :
    (∀ (cm : ConnectionManager) (ws : Nat) (ty mv : Option String),
        cm.game_state.turn = none → cm.handle_message ws ty mv = (cm, []))
    ∧ (∀ es : List Event, (runTrace es).game_state.game_started = false →
        (runTrace es).game_state.turn = none)
    ∧ (∀ (es : List Event) (e : Event) (d : Nat × Msg),
        (runTrace es).game_state.game_started = false →
        d ∈ ((runTrace es).step e).2 → isGameUpdateMsg d.2 = false) := by
  refine ⟨handle_message_vacant_noop, fun es => runTrace_lobbyVacant es, ?_⟩
  intro es e d hs hd
  cases e with
  | connect ws => exact connect_msgs_not_game_update _ ws d hd
  | disconnect ws => exact disconnect_msgs_not_game_update _ ws d hd
  | message ws ty mv =>
    have hv := runTrace_lobbyVacant es hs
    have hd' : d ∈ ((runTrace es).handle_message ws ty mv).2 := hd
    rw [handle_message_vacant_noop _ _ _ _ hv] at hd'
    simp at hd'

/-- Witness for C10: in the two-player lobby any move message is dropped,
and the lobby trace has a vacant turn. -/
theorem lobby_messages_dropped_witness :
    (runTrace [Event.connect 1, Event.connect 2]).handle_message 1
        (some "move") (some "e4")
      = (runTrace [Event.connect 1, Event.connect 2], [])
    ∧ (runTrace [Event.connect 1, Event.connect 2]).game_state.turn = none :=
  ⟨lobby_messages_dropped.1 (runTrace [Event.connect 1, Event.connect 2]) 1
      (some "move") (some "e4") (by decide),
    lobby_messages_dropped.2.1 [Event.connect 1, Event.connect 2] (by decide)⟩

/-- C7: when the turn holder's connection disconnects in a reachable
state, the turn becomes vacant; a vacant turn survives any message event
(nothing emitted, state unchanged) and any disconnect event (only
`player_disconnected` deliveries, never a `game_update`); and a connect
into a started game with a vacant turn assigns the turn to the newly
minted identity and delivers a `turn_update` carrying it to every
connected player. -/
theorem turn_holder_disconnect_vacancy :
    (∀ (es : List Event) (ws : Nat) (t : String),
        (runTrace es).game_state.turn = some t →
        (runTrace es).game_state.get_player_id_by_websocket ws = some t →
        ((runTrace es).disconnect ws).1.game_state.turn = none)
    ∧ (∀ (cm : ConnectionManager) (ws : Nat) (ty mv : Option String),
        cm.game_state.turn = none → cm.handle_message ws ty mv = (cm, []))
    ∧ (∀ (cm : ConnectionManager) (ws : Nat), cm.game_state.turn = none →
        (cm.disconnect ws).1.game_state.turn = none
        ∧ ∀ d ∈ (cm.disconnect ws).2, isGameUpdateMsg d.2 = false)
    ∧ (∀ (cm : ConnectionManager) (ws : Nat),
        cm.game_state.game_started = true → cm.game_state.turn = none →
        (cm.connect ws).1.game_state.turn
            = some (mintId (cm.player_counter + 1))
          ∧ ∀ p ∈ (cm.connect ws).1.game_state.players,
              (p.2, Msg.turn_update (some (mintId (cm.player_counter + 1))))
                ∈ (cm.connect ws).2) := by
  refine ⟨?_, handle_message_vacant_noop, ?_, ?_⟩
  · intro es ws t hturn hreg
    have htmem := runTrace_turnInv es t hturn
    have hne : t ≠ "" := runTrace_idsOk es t htmem
    unfold ConnectionManager.disconnect
    rw [hreg]
    dsimp only
    rw [if_neg hne]
    dsimp only
    unfold GameState.remove_player
    dsimp only
    rw [if_pos hturn]
  · intro cm ws h
    refine ⟨?_, disconnect_msgs_not_game_update cm ws⟩
    unfold ConnectionManager.disconnect
    split
    · exact h
    · split
      · exact h
      · unfold GameState.remove_player
        dsimp only
        rw [h]
        simp
  · intro cm ws hs hv
    have h1 : ¬((cm.game_state.add_player (mintId (cm.player_counter + 1))
        ws).players.length = 4
        ∧ (cm.game_state.add_player (mintId (cm.player_counter + 1))
            ws).game_started = false) := by
      rintro ⟨-, hf⟩
      have hf' : cm.game_state.game_started = false := hf
      rw [hf'] at hs
      exact Bool.noConfusion hs
    have h2 : (cm.game_state.add_player (mintId (cm.player_counter + 1))
        ws).game_started = true
        ∧ (cm.game_state.add_player (mintId (cm.player_counter + 1))
            ws).turn = none := ⟨hs, hv⟩
    unfold ConnectionManager.connect
    dsimp only
    rw [if_neg h1, if_pos h2]
    dsimp only
    refine ⟨rfl, ?_⟩
    intro p hp
    exact List.mem_append_right _ (broadcast_mem hp)

/-- Witness for C7: disconnecting P1 (the turn holder) after Scenario A
vacates the turn, and a fifth connect into a started three-player game
with a vacant turn hands the turn to the newly minted P5. -/
theorem turn_holder_disconnect_vacancy_witness :
    ((runTrace scenarioA).disconnect 1).1.game_state.turn = none
    ∧ ((ConnectionManager.mk
          (GameState.mk [("P2", 2), ("P3", 3), ("P4", 4)] ["P2", "P3", "P4"]
            none true) 4).connect 5).1.game_state.turn = some "P5" :=
  ⟨turn_holder_disconnect_vacancy.1 scenarioA 1 "P1" (by decide) (by decide),
    (turn_holder_disconnect_vacancy.2.2.2
        (ConnectionManager.mk
          (GameState.mk [("P2", 2), ("P3", 3), ("P4", 4)] ["P2", "P3", "P4"]
            none true) 4) 5 rfl rfl).1⟩

/-- C1 counterexample: in the trace where P1 connects and disconnects
before P2, P3 and P4 connect, four distinct identities have successfully
registered (the counter reached four and every connect registers), yet
the started flag is still false, because the roster never held four
members at once — refuting the claim that the flag flips exactly upon the
fourth distinct successful registration in every event sequence. -/
theorem started_fourth_registration_counterexample :
    (runTrace earlyLeaveTrace).player_counter = 4
    ∧ (runTrace earlyLeaveTrace).game_state.game_started = false
    ∧ (runTrace earlyLeaveTrace).game_state.player_order
        = ["P2", "P3", "P4"] := by
  refine ⟨by decide, by decide, by decide⟩

/-- C1 amended: the started flag never reverts, and after any event it is
set exactly when it already was set or the event is a connect whose
registration brings the mapping to four entries; hence it flips at most
once, on the connect that first brings the current roster to four members
(which can be later than the fourth distinct registration if players left
early), and at that instant the turn is the post-registration roster's
first entry. -/
theorem started_flip_characterization (cm : ConnectionManager) (e : Event) :
    (cm.step e).1.game_state.game_started
      = (cm.game_state.game_started || connectFillsRoster cm e)
    ∧ (cm.game_state.game_started = false →
        (cm.step e).1.game_state.game_started = true →
        (cm.step e).1.game_state.turn
          = (cm.step e).1.game_state.player_order.head?) := by
  cases e with
  | connect ws =>
    unfold ConnectionManager.step ConnectionManager.connect connectFillsRoster
    dsimp only
    split
    · rename_i h1
      constructor
      · have hd : decide
            ((cm.game_state.add_player (mintId (cm.player_counter + 1))
              ws).players.length = 4) = true := decide_eq_true h1.1
        rw [hd, Bool.or_true]
        rfl
      · intro _ _
        rfl
    · rename_i h1
      split
      · rename_i h2
        constructor
        · have hs : cm.game_state.game_started = true := h2.1
          show cm.game_state.game_started = _
          rw [hs, Bool.true_or]
        · intro hf _
          have htr : cm.game_state.game_started = true := h2.1
          rw [hf] at htr
          exact Bool.noConfusion htr
      · rename_i h2
        constructor
        · cases hs : cm.game_state.game_started with
          | true =>
            show cm.game_state.game_started = _
            rw [hs, Bool.true_or]
          | false =>
            have hlen : ¬((cm.game_state.add_player
                (mintId (cm.player_counter + 1)) ws).players.length = 4) :=
              fun h4 => h1 ⟨h4, hs⟩
            show cm.game_state.game_started = _
            rw [hs, Bool.false_or, decide_eq_false hlen]
        · intro hf ht
          have htr : cm.game_state.game_started = true := ht
          rw [hf] at htr
          exact Bool.noConfusion htr
  | disconnect ws =>
    constructor
    · show (cm.disconnect ws).1.game_state.game_started
        = (cm.game_state.game_started || false)
      rw [disconnect_game_started, Bool.or_false]
    · intro hf ht
      have ht' : (cm.disconnect ws).1.game_state.game_started = true := ht
      rw [disconnect_game_started, hf] at ht'
      exact Bool.noConfusion ht'
  | message ws ty mv =>
    constructor
    · show (cm.handle_message ws ty mv).1.game_state.game_started
        = (cm.game_state.game_started || false)
      rw [message_game_started, Bool.or_false]
    · intro hf ht
      have ht' : (cm.handle_message ws ty mv).1.game_state.game_started
          = true := ht
      rw [message_game_started, hf] at ht'
      exact Bool.noConfusion ht'

/-- Witness for C1: on P4's connect in Scenario A the flag flips and the
turn is the roster's first entry at that instant. -/
theorem started_flip_characterization_witness :
    ((runTrace [Event.connect 1, Event.connect 2, Event.connect 3]).step
          (Event.connect 4)).1.game_state.turn
      = ((runTrace [Event.connect 1, Event.connect 2, Event.connect 3]).step
          (Event.connect 4)).1.game_state.player_order.head? :=
  (started_flip_characterization
      (runTrace [Event.connect 1, Event.connect 2, Event.connect 3])
      (Event.connect 4)).2 (by decide) (by decide)

/-- C2 counterexample: in Scenario A the first player receives three
`player_connected` deliveries, not two — it also receives the one for
P2, because every connect broadcasts `player_connected` to all players
registered before the newcomer. -/
theorem scenarioA_p1_connected_counterexample :
    ((traceLog scenarioA).filter
        (fun d => d.1 == 1 && isPlayerConnectedMsg d.2)).length ≠ 2
    ∧ (traceLog scenarioA).filter
          (fun d => d.1 == 1 && isPlayerConnectedMsg d.2)
        = [(1, Msg.player_connected "P2"), (1, Msg.player_connected "P3"),
            (1, Msg.player_connected "P4")] := by
  refine ⟨by decide, by decide⟩

/-- C2 amended: in Scenario A the first player receives exactly three
`player_connected` deliveries — for P2, P3 and P4 — and none for itself,
and on P4's connect all four connected players receive `game_started`
with turn P1. -/
theorem scenarioA_events :
    (traceLog scenarioA).filter
        (fun d => d.1 == 1 && isPlayerConnectedMsg d.2)
      = [(1, Msg.player_connected "P2"), (1, Msg.player_connected "P3"),
          (1, Msg.player_connected "P4")]
    ∧ (1, Msg.game_started (some "P1"))
        ∈ ((runTrace [Event.connect 1, Event.connect 2,
            Event.connect 3]).connect 4).2
    ∧ (2, Msg.game_started (some "P1"))
        ∈ ((runTrace [Event.connect 1, Event.connect 2,
            Event.connect 3]).connect 4).2
    ∧ (3, Msg.game_started (some "P1"))
        ∈ ((runTrace [Event.connect 1, Event.connect 2,
            Event.connect 3]).connect 4).2
    ∧ (4, Msg.game_started (some "P1"))
        ∈ ((runTrace [Event.connect 1, Event.connect 2,
            Event.connect 3]).connect 4).2 := by
  refine ⟨by decide, by decide, by decide, by decide, by decide⟩

end Okey
